import Mathlib

/-
Shallow embedding of the argo-ephemeral-operator reconciliation engine,
its GitOps (ArgoCD) client adapter and its resource-provisioning logic,
together with theorems settling the frozen specification claims.

Modelling conventions:
  - Go strings are modelled as Lean `String` / `List Char` (ASCII-faithful).
  - Go `map[string]string` is modelled as an association list
    `List (String × String)` (insertion order is irrelevant to the claims).
  - `metav1.Time` / `time.Time` are modelled as `Nat` instants.
  - Go `error` results are modelled as `Option String` (`none` = nil error,
    `some msg` = the error rendered by `Error()`) or `Except String α`.
  - Structure fields keep the Go field names (exported Go fields are
    capitalized); the reserved name `Type` is rendered `CondType` /
    `SecretType`.
-/

/-! ## CRD data model — api/v1alpha1/ephemeralapplication_types.go -/

namespace v1alpha1

/-- SecretReference (ephemeralapplication_types.go:64-82). -/
structure SecretReference where
  Name : String
  SourceNamespace : String
  TargetName : String
  Values : List (String × String)
  deriving Repr, DecidableEq

/-- ConfigMapReference (ephemeralapplication_types.go:47-61). -/
structure ConfigMapReference where
  Name : String
  SourceNamespace : String
  Data : List (String × String)
  deriving Repr, DecidableEq

/-- AutomatedSyncPolicy (ephemeralapplication_types.go:100-108). -/
structure AutomatedSyncPolicy where
  Prune : Bool
  SelfHeal : Bool
  deriving Repr, DecidableEq

/-- SyncPolicy of the CRD (ephemeralapplication_types.go:85-97); the
flat `Prune`/`SelfHeal` fields exist in the Go type but are read nowhere. -/
structure SyncPolicy where
  Automated : Option AutomatedSyncPolicy
  Prune : Bool
  SelfHeal : Bool
  deriving Repr, DecidableEq

/-- Condition (metav1.Condition as used by the controller); the Go field
`Type` is rendered `CondType`. -/
structure Condition where
  CondType : String
  Status : String
  Reason : String
  Message : String
  LastTransitionTime : Nat
  ObservedGeneration : Int
  deriving Repr, DecidableEq

/-- EphemeralApplicationStatus (ephemeralapplication_types.go:111-144);
the Go field `Namespace` keeps its name (capitalized, so no keyword clash). -/
structure EphemeralApplicationStatus where
  Phase : String
  Namespace : String
  ArgoApplicationName : String
  Conditions : List Condition
  Message : String
  LastSyncTime : Option Nat
  CopiedSecrets : List String
  CopiedConfigMaps : List String
  deriving Repr, DecidableEq

/-- The object metadata the reconciler reads: name, deletion timestamp,
finalizer list, generation. -/
structure ObjectMeta where
  Name : String
  DeletionTimestamp : Option Nat
  Finalizers : List String
  Generation : Int
  deriving Repr, DecidableEq

/-- EphemeralApplicationSpec (ephemeralapplication_types.go:8-44). -/
structure EphemeralApplicationSpec where
  RepoURL : String
  Path : String
  TargetRevision : String
  ExpirationDate : Nat
  NamespaceName : String
  Secrets : List SecretReference
  ConfigMaps : List ConfigMapReference
  SyncPolicy : Option SyncPolicy
  deriving Repr, DecidableEq

/-- EphemeralApplication (ephemeralapplication_types.go:172-178). -/
structure EphemeralApplication where
  Meta : ObjectMeta
  Spec : EphemeralApplicationSpec
  Status : EphemeralApplicationStatus
  deriving Repr, DecidableEq

/-- Phase constants (ephemeralapplication_types.go:150-161). -/
def PhasePending : String := "Pending"

def PhaseCreating : String := "Creating"

def PhaseActive : String := "Active"

def PhaseExpiring : String := "Expiring"

def PhaseFailed : String := "Failed"

end v1alpha1

/-! ## GitOps client adapter types — internal/argocd -/

namespace argocd

/-- ResourceIgnoreDifferences (argo-cd v1alpha1 type as populated by
internal/argocd/ignore_diffs.go). -/
structure ResourceIgnoreDifferences where
  Group : String
  Kind : String
  Name : String
  JSONPointers : List String
  deriving Repr, DecidableEq

/-- BuildIgnoreDifferences (internal/argocd/ignore_diffs.go:9-39): one entry
per secret reference, named by its target name when a rename is set, with
JSON pointers /data and /stringData; then one entry per config-map
reference, named by the reference name, with /data and /binaryData. -/
def BuildIgnoreDifferences (ephApp : v1alpha1.EphemeralApplication) :
    List ResourceIgnoreDifferences :=
  (ephApp.Spec.Secrets.map (fun secret =>
    let name := if secret.TargetName != "" then secret.TargetName else secret.Name
    { Group := "", Kind := "Secret", Name := name,
      JSONPointers := ["/data", "/stringData"] }))
  ++
  (ephApp.Spec.ConfigMaps.map (fun cm =>
    { Group := "", Kind := "ConfigMap", Name := cm.Name,
      JSONPointers := ["/data", "/binaryData"] }))

/-- SyncPolicyAutomated of the adapter application type (unnamed
argocd/application.go, part_006:46-49). -/
structure SyncPolicyAutomated where
  Prune : Bool
  SelfHeal : Bool
  deriving Repr, DecidableEq

/-- SyncPolicy of the adapter application type (part_006:41-44). -/
structure SyncPolicy where
  Automated : Option SyncPolicyAutomated
  SyncOptions : List String
  deriving Repr, DecidableEq

/-- buildSyncPolicy (part_006:186-214): when the record specifies no sync
policy, default to automated sync with prune and selfHeal enabled; otherwise
carry the record's automated settings verbatim (none stays none). -/
def buildSyncPolicy (specPolicy : Option v1alpha1.SyncPolicy) : SyncPolicy :=
  match specPolicy with
  | none =>
      { Automated := some { Prune := true, SelfHeal := true },
        SyncOptions := ["CreateNamespace=true"] }
  | some sp =>
      { Automated := sp.Automated.map (fun a =>
          { Prune := a.Prune, SelfHeal := a.SelfHeal }),
        SyncOptions := ["CreateNamespace=true"] }

/-- ApplicationSource (source repo/path/revision fields of the creation
request, ephemeralapplication_controller.go:127-131). -/
structure ApplicationSource where
  RepoURL : String
  Path : String
  TargetRevision : String
  deriving Repr, DecidableEq

/-- ApplicationDestination (ephemeralapplication_controller.go:132-135). -/
structure ApplicationDestination where
  Namespace : String
  Server : String
  deriving Repr, DecidableEq

/-- The remote-application creation request assembled on Pending to
Creating. -/
structure ApplicationCreateRequest where
  Name : String
  Project : String
  Source : ApplicationSource
  Destination : ApplicationDestination
  SyncPolicy : SyncPolicy
  IgnoreDifferences : List ResourceIgnoreDifferences
  deriving Repr, DecidableEq

end argocd

/-! ## Name generator — DefaultNameGenerator (part_005, current version,
matching its unit test in internal/controller/ephemeralapplication_controller_test.go) -/

namespace controller

/-- ASCII lower-casing of one character, modelling strings.ToLower on the
ASCII range (part_005:28). -/
def toLowerChar (c : Char) : Char :=
  if 'A' ≤ c ∧ c ≤ 'Z' then Char.ofNat (c.toNat + 32) else c

/-- One sanitization step of GenerateNamespace (part_005:28-29): lower-case,
then replace underscores with hyphens. -/
def sanitizeChar (c : Char) : Char :=
  let l := toLowerChar c
  if l = '_' then '-' else l

/-- The random-suffix charset (part_005:40). -/
def nameCharset : List Char := "abcdefghijklmnopqrstuvwxyz0123456789".toList

/-- GenerateNamespace (part_005:25-47, the DefaultNameGenerator whose unit
test is in the source tree): a non-empty name is lower-cased, underscores
become hyphens, and the result is truncated to 63 characters; an empty name
yields "ephemeral-" followed by 7 characters drawn from the charset by the
generator's random source, modelled as `rnd : Fin 7 → Fin 36`. -/
def GenerateNamespace (namespaceName : String) (rnd : Fin 7 → Fin 36) : String :=
  if namespaceName != "" then
    let sanitized := (namespaceName.toList.map sanitizeChar)
    let truncated := if sanitized.length > 63 then sanitized.take 63 else sanitized
    truncated.asString
  else
    let suffix := (List.finRange 7).map (fun i => nameCharset.get ((rnd i).cast (by decide)))
    "ephemeral-" ++ suffix.asString

end controller

/-! ## Resource provisioner status summaries -/

namespace controller

/-- buildCopiedSecretsList (internal/controller/secrets.go:138-153): every
entry, inline references included, is rendered
SourceNamespace ++ "/" ++ Name ++ " -> " ++ targetName. -/
def buildCopiedSecretsList (secrets : List v1alpha1.SecretReference) : List String :=
  secrets.map (fun secret =>
    let targetName := if secret.TargetName != "" then secret.TargetName else secret.Name
    secret.SourceNamespace ++ "/" ++ secret.Name ++ " -> " ++ targetName)

/-- buildCopiedConfigMapsList (part_004:489-505): inline entries (non-empty
Data) are rendered Name ++ " (inline)", copied entries
SourceNamespace ++ "/" ++ Name. -/
def buildCopiedConfigMapsList (configMaps : List v1alpha1.ConfigMapReference) :
    List String :=
  configMaps.map (fun cm =>
    if cm.Data.length > 0 then cm.Name ++ " (inline)"
    else cm.SourceNamespace ++ "/" ++ cm.Name)

end controller

/-! ## GitOps client adapter — internal/argocd/client.go -/

namespace argocd

/-- Decidable substring test over char lists, modelling strings.Contains. -/
def listStartsWith : List Char → List Char → Bool
  | _, [] => true
  | [], _ :: _ => false
  | a :: as, b :: bs => (a = b) && listStartsWith as bs

/-- Substring containment, modelling strings.Contains. -/
def containsSub : List Char → List Char → Bool
  | [], pat => pat.isEmpty
  | a :: rest, pat => listStartsWith (a :: rest) pat || containsSub rest pat

/-- isUnauthorized (client.go:252-257): a non-nil error whose rendering
contains "401". -/
def isUnauthorized (err : Option String) : Bool :=
  match err with
  | some s => containsSub s.toList "401".toList
  | none => false

/-- Tag for the gRPC application client a request runs on: the one derived
from the client present at entry to DoRequestWithRetry, or one derived from
the rebuilt client installed after re-authentication. -/
inductive ConnTag where
  | original
  | rebuilt
  deriving Repr, DecidableEq

/-- Environment of one DoRequestWithRetry invocation: the outcome of the
first requestFunc call, of getAuthToken, of createArgcdClient, and of a
second requestFunc call should one happen. -/
structure RetryEnv where
  firstResult : Option String
  reauth : Except String String
  rebuild : Except String Unit
  secondResult : Option String
  deriving Repr

/-- Observable outcome of DoRequestWithRetry: the error returned to the
caller, the connection tag of each requestFunc invocation in order, and
whether the shared client was rebuilt. -/
structure RetryOutcome where
  returned : Option String
  attempts : List ConnTag
  clientRebuilt : Bool
  deriving Repr, DecidableEq

/-- DoRequestWithRetry (client.go:129-158). `appClient` is created once from
the client installed at entry (line 131) and is never re-derived. Inside
the 401 branch, `authToken, err := getAuthToken(...)` (line 144) declares a
fresh `err` that shadows the outer one for the rest of the block, so the
retry at line 154 both runs on the stale `appClient` and has its result
assigned only to the shadowed inner `err`; the function's `return err`
(line 157) returns the outer error from the first call. -/
def DoRequestWithRetry (env : RetryEnv) : RetryOutcome :=
  let err := env.firstResult
  if err.isSome ∧ isUnauthorized err then
    match env.reauth with
    | Except.error e =>
        { returned := some ("error renewing auth token: " ++ e),
          attempts := [ConnTag.original], clientRebuilt := false }
    | Except.ok _ =>
        match env.rebuild with
        | Except.error e =>
            { returned := some ("error recreating ArgoCD client with new token: " ++ e),
              attempts := [ConnTag.original], clientRebuilt := false }
        | Except.ok _ =>
            -- second requestFunc(appClient) call: runs on the original
            -- connection; its result (env.secondResult) is bound to the
            -- shadowed inner err and discarded at function exit
            { returned := err,
              attempts := [ConnTag.original, ConnTag.original],
              clientRebuilt := true }
  else
    { returned := err, attempts := [ConnTag.original], clientRebuilt := false }

/-- The delete request sent by DeleteApplication; AppNamespace exists on the
wire type but its population is commented out in the source (client.go:223-224). -/
structure ApplicationDeleteRequest where
  Name : Option String
  AppNamespace : Option String
  deriving Repr, DecidableEq

/-- DeleteApplication (client.go:214-228): rejects an empty name or
namespace before any network call, then submits a delete request carrying
only the application name. The value returned models the request handed to
appClient.Delete. -/
def DeleteApplication (name : String) (nspace : String) :
    Except String ApplicationDeleteRequest :=
  if name = "" ∨ nspace = "" then
    Except.error "application name and namespace must be defined"
  else
    Except.ok { Name := some name, AppNamespace := none }

end argocd

/-! ## Reconciler — internal/controller/ephemeralapplication_controller.go -/

namespace controller

/-- finalizerName (ephemeralapplication_controller.go:25). -/
def finalizerName : String := "ephemeral.argo.io/finalizer"

/-- Externally visible side effects of one reconciliation pass, in order. -/
inductive Effect where
  | updateStatus (st : v1alpha1.EphemeralApplicationStatus)
  | updateRecord (finalizers : List String)
  | deleteRecord (name : String)
  | createBoundary (name : String)
  | deleteBoundary (name : String)
  | deleteArgoApp (name : String)
  | provisionSecret (name : String)
  | provisionConfigMap (name : String)
  | submitCreate (req : argocd.ApplicationCreateRequest)
  deriving Repr, DecidableEq

/-- Outcome of one handler invocation: the in-memory record afterwards, the
ordered side effects, the requested requeue delay in seconds (none when the
Go code returns an empty ctrl.Result), and the returned error. -/
structure HandlerResult where
  App : v1alpha1.EphemeralApplication
  Trace : List Effect
  Requeue : Option Nat
  Err : Option String
  deriving Repr, DecidableEq

/-- Prepend already-performed effects to a handler result. -/
def HandlerResult.withTraceHead (pre : List Effect) (r : HandlerResult) : HandlerResult :=
  { r with Trace := pre ++ r.Trace }

/-- mkCondition builds the metav1.Condition assembled by setCondition
(ephemeralapplication_controller.go:340-347). -/
def mkCondition (now : Nat) (generation : Int)
    (conditionType status reason message : String) : v1alpha1.Condition :=
  { CondType := conditionType, Status := status, Reason := reason,
    Message := message, LastTransitionTime := now,
    ObservedGeneration := generation }

/-- setCondition (ephemeralapplication_controller.go:334-361): replace the
first condition with the same type in place, else append. -/
def setCondition (conds : List v1alpha1.Condition) (condition : v1alpha1.Condition) :
    List v1alpha1.Condition :=
  match conds with
  | [] => [condition]
  | c :: rest =>
      if c.CondType = condition.CondType then condition :: rest
      else c :: setCondition rest condition

/-- isExpired (ephemeralapplication_controller.go:301-304):
time.Now().After(spec.ExpirationDate), i.e. strictly after. -/
def isExpired (now : Nat) (ephApp : v1alpha1.EphemeralApplication) : Bool :=
  ephApp.Spec.ExpirationDate < now

/-- updateStatusWithError (ephemeralapplication_controller.go:314-331): set
the phase, record "message: err" in the status message, upsert a
Ready=False/Error condition, persist; on persistence failure return that
error, otherwise requeue at the reconcile interval with a nil error. -/
def updateStatusWithError (ephApp : v1alpha1.EphemeralApplication)
    (now interval : Nat) (phase message errMsg : String)
    (statusUpdate : Option String) : HandlerResult :=
  let st := { ephApp.Status with
              Phase := phase,
              Message := message ++ ": " ++ errMsg,
              Conditions := setCondition ephApp.Status.Conditions
                (mkCondition now ephApp.Meta.Generation "Ready" "False" "Error" message) }
  let app := { ephApp with Status := st }
  match statusUpdate with
  | some ue => { App := app, Trace := [Effect.updateStatus st], Requeue := none, Err := some ue }
  | none => { App := app, Trace := [Effect.updateStatus st], Requeue := some interval, Err := none }

/-- Environment for handleExpiration: outcomes of the status persist and of
the record delete. -/
structure ExpirationEnv where
  statusUpdate : Option String
  deleteRecord : Option String
  deriving Repr

/-- handleExpiration (ephemeralapplication_controller.go:239-257): set phase
Expiring with its message, upsert a Ready=False/Expiring condition, persist
the status, then delete the record itself. -/
def handleExpiration (ephApp : v1alpha1.EphemeralApplication) (now : Nat)
    (env : ExpirationEnv) : HandlerResult :=
  let st := { ephApp.Status with
              Phase := v1alpha1.PhaseExpiring,
              Message := "Ephemeral environment has expired and is being deleted",
              Conditions := setCondition ephApp.Status.Conditions
                (mkCondition now ephApp.Meta.Generation "Ready" "False" "Expiring"
                  "Environment has expired") }
  let app := { ephApp with Status := st }
  match env.statusUpdate with
  | some ue => { App := app, Trace := [Effect.updateStatus st], Requeue := none, Err := some ue }
  | none =>
      match env.deleteRecord with
      | some de =>
          { App := app, Trace := [Effect.updateStatus st, Effect.deleteRecord app.Meta.Name],
            Requeue := none, Err := some de }
      | none =>
          { App := app, Trace := [Effect.updateStatus st, Effect.deleteRecord app.Meta.Name],
            Requeue := none, Err := none }

/-- The remote ArgoCD application as observed by the controller. -/
structure ArgoApplication where
  Name : String
  SyncStatus : String
  HealthStatus : String
  deriving Repr, DecidableEq

/-- Result of the adapter query r.ArgoClient.GetApplication as the
controller inspects it: an error recognized by errors.IsNotFound, any other
error, or the found application. -/
inductive GetAppResult where
  | notFound (msg : String)
  | failed (msg : String)
  | found (app : ArgoApplication)
  deriving Repr, DecidableEq

/-- handleCreatingPhase (ephemeralapplication_controller.go:165-199): a
not-found from the adapter query moves the record to Failed ("ArgoCD
application not found"); any other query error is returned unchanged; a
Synced+Healthy application moves the record to Active; otherwise stay in
Creating and requeue after 30 seconds. -/
def handleCreatingPhase (ephApp : v1alpha1.EphemeralApplication)
    (now interval : Nat) (get : GetAppResult)
    (statusUpdate : Option String) : HandlerResult :=
  match get with
  | GetAppResult.notFound msg =>
      updateStatusWithError ephApp now interval v1alpha1.PhaseFailed
        "ArgoCD application not found" msg statusUpdate
  | GetAppResult.failed msg =>
      { App := ephApp, Trace := [], Requeue := none, Err := some msg }
  | GetAppResult.found argoApp =>
      if argoApp.SyncStatus = "Synced" ∧ argoApp.HealthStatus = "Healthy" then
        let st := { ephApp.Status with
                    Phase := v1alpha1.PhaseActive,
                    Message := "Ephemeral environment is active",
                    LastSyncTime := some now,
                    Conditions := setCondition ephApp.Status.Conditions
                      (mkCondition now ephApp.Meta.Generation "Ready" "True" "Active"
                        "Ephemeral environment is active and healthy") }
        let app := { ephApp with Status := st }
        match statusUpdate with
        | some ue => { App := app, Trace := [Effect.updateStatus st], Requeue := none, Err := some ue }
        | none => { App := app, Trace := [Effect.updateStatus st], Requeue := some interval, Err := none }
      else
        { App := ephApp, Trace := [], Requeue := some 30, Err := none }

/-- handleActivePhase (ephemeralapplication_controller.go:202-230): a
not-found from the adapter query moves the record to Failed ("ArgoCD
application disappeared"); any other query error is returned unchanged; a
Synced application refreshes LastSyncTime; always requeue at the reconcile
interval on the non-error paths. -/
def handleActivePhase (ephApp : v1alpha1.EphemeralApplication)
    (now interval : Nat) (get : GetAppResult)
    (statusUpdate : Option String) : HandlerResult :=
  match get with
  | GetAppResult.notFound msg =>
      updateStatusWithError ephApp now interval v1alpha1.PhaseFailed
        "ArgoCD application disappeared" msg statusUpdate
  | GetAppResult.failed msg =>
      { App := ephApp, Trace := [], Requeue := none, Err := some msg }
  | GetAppResult.found argoApp =>
      if argoApp.SyncStatus = "Synced" then
        let st := { ephApp.Status with LastSyncTime := some now }
        let app := { ephApp with Status := st }
        match statusUpdate with
        | some ue => { App := app, Trace := [Effect.updateStatus st], Requeue := none, Err := some ue }
        | none => { App := app, Trace := [Effect.updateStatus st], Requeue := some interval, Err := none }
      else
        { App := ephApp, Trace := [], Requeue := some interval, Err := none }

/-- handleFailedPhase (ephemeralapplication_controller.go:233-236): requeue
at the reconcile interval so expiration still fires. -/
def handleFailedPhase (ephApp : v1alpha1.EphemeralApplication)
    (interval : Nat) : HandlerResult :=
  { App := ephApp, Trace := [], Requeue := some interval, Err := none }

/-- Outcome of one tolerant delete call during teardown. -/
inductive DeleteOutcome where
  | ok
  | notFound
  | failed (msg : String)
  deriving Repr, DecidableEq

/-- Environment for handleDeletion: outcome of the remote-application
delete, of the namespace delete, and of the finalizer-removing update. -/
structure DeletionEnv where
  argoDelete : DeleteOutcome
  nsDelete : DeleteOutcome
  update : Option String
  deriving Repr

/-- handleDeletion (ephemeralapplication_controller.go:260-299): when the
finalizer is present, delete the recorded ArgoCD application (a not-found
error is tolerated), then the recorded namespace (not-found tolerated), and
only then remove the finalizer and persist; a real error on either delete
aborts the pass before the finalizer is touched. Without the finalizer the
pass does nothing. -/
def handleDeletion (ephApp : v1alpha1.EphemeralApplication)
    (env : DeletionEnv) : HandlerResult :=
  if ephApp.Meta.Finalizers.contains finalizerName then
    let argoTrace :=
      if ephApp.Status.ArgoApplicationName != "" then
        [Effect.deleteArgoApp ephApp.Status.ArgoApplicationName]
      else []
    match (if ephApp.Status.ArgoApplicationName != "" then env.argoDelete else DeleteOutcome.ok) with
    | DeleteOutcome.failed msg =>
        { App := ephApp, Trace := argoTrace, Requeue := none, Err := some msg }
    | _ =>
        let nsTrace :=
          if ephApp.Status.Namespace != "" then
            [Effect.deleteBoundary ephApp.Status.Namespace]
          else []
        match (if ephApp.Status.Namespace != "" then env.nsDelete else DeleteOutcome.ok) with
        | DeleteOutcome.failed msg =>
            { App := ephApp, Trace := argoTrace ++ nsTrace, Requeue := none, Err := some msg }
        | _ =>
            let newFinalizers := ephApp.Meta.Finalizers.filter (fun f => f ≠ finalizerName)
            let app := { ephApp with Meta := { ephApp.Meta with Finalizers := newFinalizers } }
            { App := app,
              Trace := argoTrace ++ nsTrace ++ [Effect.updateRecord newFinalizers],
              Requeue := none, Err := env.update }
  else
    { App := ephApp, Trace := [], Requeue := none, Err := none }

end controller

/-! ## Resource provisioner — internal/controller/secrets.go and the
config-map counterpart (part_004:372-487) -/

namespace controller

/-- A stored secret: the fields the provisioner reads and writes. -/
structure SecretObj where
  SecretType : String
  Data : List (String × String)
  Labels : List (String × String)
  Annots : List (String × String)
  deriving Repr, DecidableEq

/-- A stored config map. -/
structure ConfigMapObj where
  Data : List (String × String)
  Labels : List (String × String)
  Annots : List (String × String)
  deriving Repr, DecidableEq

/-- The object-store slice the provisioner touches, keyed by
(namespace, name). -/
structure Cluster where
  Secrets : List ((String × String) × SecretObj)
  ConfigMaps : List ((String × String) × ConfigMapObj)
  deriving Repr, DecidableEq

/-- Lookup of a secret by namespace and name. -/
def lookupSecret (c : Cluster) (nspace name : String) : Option SecretObj :=
  (c.Secrets.find? (fun e => e.1 = (nspace, name))).map (fun e => e.2)

/-- Lookup of a config map by namespace and name. -/
def lookupConfigMap (c : Cluster) (nspace name : String) : Option ConfigMapObj :=
  (c.ConfigMaps.find? (fun e => e.1 = (nspace, name))).map (fun e => e.2)

/-- Store a secret, replacing any entry under the same key. -/
def storeSecret (c : Cluster) (nspace name : String) (obj : SecretObj) : Cluster :=
  { c with Secrets :=
      ((nspace, name), obj) :: c.Secrets.filter (fun e => e.1 ≠ (nspace, name)) }

/-- Store a config map, replacing any entry under the same key. -/
def storeConfigMap (c : Cluster) (nspace name : String) (obj : ConfigMapObj) : Cluster :=
  { c with ConfigMaps :=
      ((nspace, name), obj) :: c.ConfigMaps.filter (fun e => e.1 ≠ (nspace, name)) }

/-- Provenance labels stamped on every provisioned object
(secrets.go:80-95, part_004:432-448). -/
def provenanceLabels (ownerName : String) (inline : Bool)
    (sourceNamespace sourceName : String) : List (String × String) :=
  let base := [("app.kubernetes.io/managed-by", "argo-ephemeral-operator"),
               ("ephemeral.argo.io/owner", ownerName)]
  if inline then base ++ [("ephemeral.argo.io/inline", "true")]
  else base ++ [("ephemeral.argo.io/copied-from", sourceNamespace),
                ("ephemeral.argo.io/source-name", sourceName)]

/-- copySecret (secrets.go:41-135): resolve the data (inline values when
non-empty, else the source secret, whose absence is a hard failure), compute
the target name (rename when set), stamp provenance metadata, then upsert:
create, or on an existing target copy only Data and SecretType forward. -/
def copySecret (c : Cluster) (ownerName : String)
    (secretRef : v1alpha1.SecretReference) (targetNamespace : String) :
    Except String Cluster :=
  let source : Except String (String × List (String × String)) :=
    if secretRef.Values.length = 0 then
      match lookupSecret c secretRef.SourceNamespace secretRef.Name with
      | none => Except.error "failed to get source secret: not found"
      | some s => Except.ok (s.SecretType, s.Data)
    else
      Except.ok ("Opaque", secretRef.Values)
  match source with
  | Except.error e => Except.error e
  | Except.ok (ty, data) =>
      let targetName := if secretRef.TargetName != "" then secretRef.TargetName else secretRef.Name
      let inline := secretRef.Values.length > 0
      let annots :=
        if inline then []
        else [("ephemeral.argo.io/source-namespace", secretRef.SourceNamespace),
              ("ephemeral.argo.io/source-secret", secretRef.Name)]
      match lookupSecret c targetNamespace targetName with
      | some existing =>
          Except.ok (storeSecret c targetNamespace targetName
            { existing with Data := data, SecretType := ty })
      | none =>
          Except.ok (storeSecret c targetNamespace targetName
            { SecretType := ty, Data := data,
              Labels := provenanceLabels ownerName inline secretRef.SourceNamespace secretRef.Name,
              Annots := annots })

/-- Outcome of a fail-fast provisioning loop: the store afterwards, one
provisioning effect per successfully processed reference in order, and the
wrapped error of the first failing reference. -/
structure ProvisionOutcome where
  cluster : Cluster
  trace : List Effect
  err : Option String
  deriving Repr, DecidableEq

/-- copySecrets (secrets.go:17-38): no-op on an empty list; otherwise copy
each reference in order and stop at the first failure, wrapping it as
"failed to copy secret NAME from SOURCENAMESPACE: err". -/
def copySecrets (c : Cluster) (ownerName : String)
    (refs : List v1alpha1.SecretReference) (targetNamespace : String) :
    ProvisionOutcome :=
  match refs with
  | [] => { cluster := c, trace := [], err := none }
  | r :: rest =>
      match copySecret c ownerName r targetNamespace with
      | Except.error e =>
          { cluster := c, trace := [],
            err := some ("failed to copy secret " ++ r.Name ++ " from "
              ++ r.SourceNamespace ++ ": " ++ e) }
      | Except.ok c1 =>
          let res := copySecrets c1 ownerName rest targetNamespace
          { cluster := res.cluster,
            trace := Effect.provisionSecret r.Name :: res.trace,
            err := res.err }

/-- copyConfigMap (part_004:396-487): non-empty inline Data wins, else the
source config map is fetched (absence is a hard failure); stamp provenance
metadata and upsert (on an existing target only Data is copied forward). -/
def copyConfigMap (c : Cluster) (ownerName : String)
    (cmRef : v1alpha1.ConfigMapReference) (targetNamespace : String) :
    Except String Cluster :=
  let source : Except String (List (String × String)) :=
    if cmRef.Data.length > 0 then
      Except.ok cmRef.Data
    else
      match lookupConfigMap c cmRef.SourceNamespace cmRef.Name with
      | none => Except.error "failed to get source configmap: not found"
      | some s => Except.ok s.Data
  match source with
  | Except.error e => Except.error e
  | Except.ok data =>
      let inline := cmRef.Data.length > 0
      let annots :=
        if inline then []
        else [("ephemeral.argo.io/source-namespace", cmRef.SourceNamespace),
              ("ephemeral.argo.io/source-configmap", cmRef.Name)]
      match lookupConfigMap c targetNamespace cmRef.Name with
      | some existing =>
          Except.ok (storeConfigMap c targetNamespace cmRef.Name
            { existing with Data := data })
      | none =>
          Except.ok (storeConfigMap c targetNamespace cmRef.Name
            { Data := data,
              Labels := provenanceLabels ownerName inline cmRef.SourceNamespace cmRef.Name,
              Annots := annots })

/-- copyConfigMaps (part_004:372-393): fail-fast loop wrapping the first
failure as "failed to copy configmap NAME: err". -/
def copyConfigMaps (c : Cluster) (ownerName : String)
    (refs : List v1alpha1.ConfigMapReference) (targetNamespace : String) :
    ProvisionOutcome :=
  match refs with
  | [] => { cluster := c, trace := [], err := none }
  | r :: rest =>
      match copyConfigMap c ownerName r targetNamespace with
      | Except.error e =>
          { cluster := c, trace := [],
            err := some ("failed to copy configmap " ++ r.Name ++ ": " ++ e) }
      | Except.ok c1 =>
          let res := copyConfigMaps c1 ownerName rest targetNamespace
          { cluster := res.cluster,
            trace := Effect.provisionConfigMap r.Name :: res.trace,
            err := res.err }

end controller

/-! ## Pending phase and the composed reconciliation pass -/

namespace controller

/-- Outcome of creating the isolation-boundary namespace. -/
inductive BoundaryOutcome where
  | ok
  | alreadyExists
  | failed (msg : String)
  deriving Repr, DecidableEq

/-- Environment for the Pending-phase handler. -/
structure PendingEnv where
  cluster : Cluster
  rnd : Fin 7 → Fin 36
  boundaryCreate : BoundaryOutcome
  createApp : Option String
  statusUpdate : Option String

/-- buildCreateRequest: the remote-application creation request assembled on
the Pending to Creating transition, from the record's source, destination
and sync-policy fields (ephemeralapplication_controller.go:120-144 for the
name/project/source/destination shape) together with the repository's
buildSyncPolicy (part_006:186-214) and BuildIgnoreDifferences
(internal/argocd/ignore_diffs.go). -/
def buildCreateRequest (ephApp : v1alpha1.EphemeralApplication)
    (nspace : String) : argocd.ApplicationCreateRequest :=
  { Name := ephApp.Meta.Name,
    Project := "default",
    Source := { RepoURL := ephApp.Spec.RepoURL, Path := ephApp.Spec.Path,
                TargetRevision := ephApp.Spec.TargetRevision },
    Destination := { Namespace := nspace, Server := "https://kubernetes.default.svc" },
    SyncPolicy := argocd.buildSyncPolicy ephApp.Spec.SyncPolicy,
    IgnoreDifferences := argocd.BuildIgnoreDifferences ephApp }

/-- Modelled from the spec: the current Pending-phase handler is not in the
source tree (the controller file shipped alongside it is a stale version
that references a field the CRD no longer has and never calls the
provisioner; only the helpers `copySecrets`, `copyConfigMaps`,
`BuildIgnoreDifferences`, `buildSyncPolicy`, the CRD types and the handler's
collaborators are present). Following section 4.1 step 5 of the spec:
generate/resolve the boundary name, create the boundary (already-exists
tolerated), invoke the Resource Provisioner for secrets then config objects
(fail the whole phase on the first error, which names the failing
reference), build and submit the remote-application creation request; on
success set phase=Creating, record namespace and remote application name
and a Ready=False/Creating condition and requeue after 30 seconds; on any
step's failure set phase=Failed with the error captured in the message and
a Ready=False/Error condition. The provisioning helpers themselves are
embedded from the repository source above. -/
def handlePendingPhase (ephApp : v1alpha1.EphemeralApplication)
    (now interval : Nat) (env : PendingEnv) : HandlerResult :=
  let nspace := GenerateNamespace ephApp.Spec.NamespaceName env.rnd
  match env.boundaryCreate with
  | BoundaryOutcome.failed msg =>
      (updateStatusWithError ephApp now interval v1alpha1.PhaseFailed
        "Failed to create namespace" msg env.statusUpdate).withTraceHead
        [Effect.createBoundary nspace]
  | _ =>
      let sres := copySecrets env.cluster ephApp.Meta.Name ephApp.Spec.Secrets nspace
      match sres.err with
      | some e =>
          (updateStatusWithError ephApp now interval v1alpha1.PhaseFailed
            "Failed to copy secrets" e env.statusUpdate).withTraceHead
            (Effect.createBoundary nspace :: sres.trace)
      | none =>
          let cres := copyConfigMaps sres.cluster ephApp.Meta.Name ephApp.Spec.ConfigMaps nspace
          match cres.err with
          | some e =>
              (updateStatusWithError ephApp now interval v1alpha1.PhaseFailed
                "Failed to copy configmaps" e env.statusUpdate).withTraceHead
                (Effect.createBoundary nspace :: (sres.trace ++ cres.trace))
          | none =>
              let req := buildCreateRequest ephApp nspace
              match env.createApp with
              | some e =>
                  (updateStatusWithError ephApp now interval v1alpha1.PhaseFailed
                    "Failed to create ArgoCD application" e env.statusUpdate).withTraceHead
                    (Effect.createBoundary nspace :: (sres.trace ++ cres.trace
                      ++ [Effect.submitCreate req]))
              | none =>
                  let st := { ephApp.Status with
                              Phase := v1alpha1.PhaseCreating,
                              Namespace := nspace,
                              ArgoApplicationName := req.Name,
                              Message := "ArgoCD application created successfully",
                              CopiedSecrets := buildCopiedSecretsList ephApp.Spec.Secrets,
                              CopiedConfigMaps := buildCopiedConfigMapsList ephApp.Spec.ConfigMaps,
                              Conditions := setCondition ephApp.Status.Conditions
                                (mkCondition now ephApp.Meta.Generation "Ready" "False"
                                  "Creating" "Creating ephemeral environment") }
                  let app := { ephApp with Status := st }
                  let trace := Effect.createBoundary nspace :: (sres.trace ++ cres.trace
                    ++ [Effect.submitCreate req, Effect.updateStatus st])
                  match env.statusUpdate with
                  | some ue => { App := app, Trace := trace, Requeue := none, Err := some ue }
                  | none => { App := app, Trace := trace, Requeue := some 30, Err := none }

/-- Environment of one full reconciliation pass. -/
structure ReconcileEnv where
  now : Nat
  interval : Nat
  finalizerUpdate : Option String
  expiration : ExpirationEnv
  pending : PendingEnv
  getApp : GetAppResult
  statusUpdate : Option String
  deletion : DeletionEnv

/-- Reconcile (ephemeralapplication_controller.go:49-93), given the fetched
record: teardown when deletion has begun; else add the finalizer when
absent and persist; else handle expiration when the predicate holds; else
dispatch on the phase (empty dispatches as Pending, an unknown phase does
nothing). -/
def Reconcile (ephApp : v1alpha1.EphemeralApplication)
    (env : ReconcileEnv) : HandlerResult :=
  if ephApp.Meta.DeletionTimestamp.isSome then
    handleDeletion ephApp env.deletion
  else
    let needFinalizer := ¬ ephApp.Meta.Finalizers.contains finalizerName
    let fs := ephApp.Meta.Finalizers ++ [finalizerName]
    let app1 :=
      if needFinalizer then { ephApp with Meta := { ephApp.Meta with Finalizers := fs } }
      else ephApp
    let finTrace := if needFinalizer then [Effect.updateRecord fs] else []
    match (if needFinalizer then env.finalizerUpdate else none) with
    | some e => { App := app1, Trace := finTrace, Requeue := none, Err := some e }
    | none =>
        if isExpired env.now app1 then
          (handleExpiration app1 env.now env.expiration).withTraceHead finTrace
        else if app1.Status.Phase = "" ∨ app1.Status.Phase = v1alpha1.PhasePending then
          (handlePendingPhase app1 env.now env.interval env.pending).withTraceHead finTrace
        else if app1.Status.Phase = v1alpha1.PhaseCreating then
          (handleCreatingPhase app1 env.now env.interval env.getApp env.statusUpdate).withTraceHead finTrace
        else if app1.Status.Phase = v1alpha1.PhaseActive then
          (handleActivePhase app1 env.now env.interval env.getApp env.statusUpdate).withTraceHead finTrace
        else if app1.Status.Phase = v1alpha1.PhaseFailed then
          (handleFailedPhase app1 env.interval).withTraceHead finTrace
        else
          { App := app1, Trace := finTrace, Requeue := none, Err := none }

end controller

/-! ## Auxiliary predicates and concrete sample inputs used by the
verification -/

namespace controller

/-- Character allowed in a DNS-label-safe boundary name: lowercase
alphanumeric or hyphen. -/
def isLowerAlnumHyphen (c : Char) : Bool :=
  decide ('a' ≤ c ∧ c ≤ 'z') || decide ('0' ≤ c ∧ c ≤ '9') || decide (c = '-')

/-- The hint alphabet under which sanitization provably lands in the
DNS-label-safe set: ASCII letters of either case, digits, hyphen,
underscore. -/
def nameInputChars : List Char :=
  "abcdefghijklmnopqrstuvwxyzABCDEFGHIJKLMNOPQRSTUVWXYZ0123456789-_".toList

/-- Membership in the sanitizable hint alphabet. -/
def isNameInputChar (c : Char) : Bool :=
  decide (c ∈ nameInputChars)

/-- Recognizer for a remote-application submission effect. -/
def isSubmitEffect : Effect → Bool
  | Effect.submitCreate _ => true
  | _ => false

/-- Recognizer for a config-map provisioning effect. -/
def isProvisionConfigMapEffect : Effect → Bool
  | Effect.provisionConfigMap _ => true
  | _ => false

/-- Recognizer for a record-update (finalizer write) effect. -/
def isUpdateRecordEffect : Effect → Bool
  | Effect.updateRecord _ => true
  | _ => false

/-- A fixed random source for concrete evaluations. -/
def rndZero : Fin 7 → Fin 36 := fun _ => ⟨0, by decide⟩

/-- An empty object store. -/
def emptyCluster : Cluster := { Secrets := [], ConfigMaps := [] }

/-- A concrete record used to evaluate the theorems: one inline secret
reference and one inline config-map reference, explicit boundary name,
no sync policy, phase Pending. -/
def sampleApp : v1alpha1.EphemeralApplication :=
  { Meta := { Name := "demo", DeletionTimestamp := none,
              Finalizers := [finalizerName], Generation := 1 },
    Spec := { RepoURL := "https://example.com/repo.git", Path := "k8s",
              TargetRevision := "main", ExpirationDate := 100,
              NamespaceName := "demo-ns",
              Secrets := [{ Name := "inline", SourceNamespace := "",
                            TargetName := "", Values := [("k", "v")] }],
              ConfigMaps := [{ Name := "cfg", SourceNamespace := "",
                               Data := [("a", "b")] }],
              SyncPolicy := none },
    Status := { Phase := v1alpha1.PhasePending, Namespace := "",
                ArgoApplicationName := "", Conditions := [], Message := "",
                LastSyncTime := none, CopiedSecrets := [], CopiedConfigMaps := [] } }

/-- A pending-phase environment for the concrete record: empty store,
boundary creation succeeds, creation and status persist succeed. -/
def samplePendingEnv : PendingEnv :=
  { cluster := emptyCluster, rnd := rndZero,
    boundaryCreate := BoundaryOutcome.ok, createApp := none,
    statusUpdate := none }

/-- A full reconcile environment for the concrete record: every external
call succeeds, the query finds nothing. -/
def sampleReconcileEnv : ReconcileEnv :=
  { now := 5, interval := 300, finalizerUpdate := none,
    expiration := { statusUpdate := none, deleteRecord := none },
    pending := samplePendingEnv,
    getApp := GetAppResult.notFound "applications.argoproj.io \x22demo\x22 not found",
    statusUpdate := none,
    deletion := { argoDelete := DeleteOutcome.notFound,
                  nsDelete := DeleteOutcome.notFound, update := none } }

end controller

/-- The status written by handleExpiration
(ephemeralapplication_controller.go:243-245): phase Expiring, the expiry
message, and an upserted Ready=False/Expiring condition. -/
def controller.expiringStatus (app : v1alpha1.EphemeralApplication)
    (now : Nat) : v1alpha1.EphemeralApplicationStatus :=
  { app.Status with
    Phase := v1alpha1.PhaseExpiring,
    Message := "Ephemeral environment has expired and is being deleted",
    Conditions := controller.setCondition app.Status.Conditions
      (controller.mkCondition now app.Meta.Generation "Ready" "False" "Expiring"
        "Environment has expired") }

/-! ## Helper lemmas -/

namespace controller

theorem mem_setCondition (conds : List v1alpha1.Condition) (c : v1alpha1.Condition) :
    c ∈ setCondition conds c := by
  induction conds with
  | nil => simp [setCondition]
  | cons hd tl ih =>
      by_cases h : hd.CondType = c.CondType
      · simp [setCondition, h]
      · simp only [setCondition, if_neg h]
        exact List.mem_cons_of_mem hd ih

theorem copySecrets_trace_of_ok (c : Cluster) (owner : String)
    (refs : List v1alpha1.SecretReference) (ns : String)
    (h : (copySecrets c owner refs ns).err = none) :
    (copySecrets c owner refs ns).trace
      = refs.map (fun r => Effect.provisionSecret r.Name) := by
  induction refs generalizing c with
  | nil => simp [copySecrets]
  | cons r rest ih =>
      simp only [copySecrets] at h ⊢
      cases hc : copySecret c owner r ns with
      | error e => simp [hc] at h
      | ok c1 =>
          simp only [hc] at h ⊢
          simp [List.map_cons, ih c1 h]

theorem copyConfigMaps_trace_of_ok (c : Cluster) (owner : String)
    (refs : List v1alpha1.ConfigMapReference) (ns : String)
    (h : (copyConfigMaps c owner refs ns).err = none) :
    (copyConfigMaps c owner refs ns).trace
      = refs.map (fun r => Effect.provisionConfigMap r.Name) := by
  induction refs generalizing c with
  | nil => simp [copyConfigMaps]
  | cons r rest ih =>
      simp only [copyConfigMaps] at h ⊢
      cases hc : copyConfigMap c owner r ns with
      | error e => simp [hc] at h
      | ok c1 =>
          simp only [hc] at h ⊢
          simp [List.map_cons, ih c1 h]

theorem copySecrets_err_names_ref (c : Cluster) (owner : String)
    (refs : List v1alpha1.SecretReference) (ns : String) (e : String)
    (h : (copySecrets c owner refs ns).err = some e) :
    ∃ r ∈ refs, ∃ inner, e = "failed to copy secret " ++ r.Name ++ " from "
      ++ r.SourceNamespace ++ ": " ++ inner := by
  induction refs generalizing c with
  | nil => simp [copySecrets] at h
  | cons r rest ih =>
      simp only [copySecrets] at h
      cases hc : copySecret c owner r ns with
      | error e0 =>
          simp only [hc, Option.some_inj] at h
          exact ⟨r, List.mem_cons_self r rest, e0, h.symm⟩
      | ok c1 =>
          simp only [hc] at h
          obtain ⟨r0, hr0, inner, hinner⟩ := ih c1 h
          exact ⟨r0, List.mem_cons_of_mem r hr0, inner, hinner⟩

theorem copyConfigMaps_err_names_ref (c : Cluster) (owner : String)
    (refs : List v1alpha1.ConfigMapReference) (ns : String) (e : String)
    (h : (copyConfigMaps c owner refs ns).err = some e) :
    ∃ r ∈ refs, ∃ inner, e = "failed to copy configmap " ++ r.Name ++ ": " ++ inner := by
  induction refs generalizing c with
  | nil => simp [copyConfigMaps] at h
  | cons r rest ih =>
      simp only [copyConfigMaps] at h
      cases hc : copyConfigMap c owner r ns with
      | error e0 =>
          simp only [hc, Option.some_inj] at h
          exact ⟨r, List.mem_cons_self r rest, e0, h.symm⟩
      | ok c1 =>
          simp only [hc] at h
          obtain ⟨r0, hr0, inner, hinner⟩ := ih c1 h
          exact ⟨r0, List.mem_cons_of_mem r hr0, inner, hinner⟩

theorem copySecrets_trace_countP_submit (c : Cluster) (owner : String)
    (refs : List v1alpha1.SecretReference) (ns : String) :
    (copySecrets c owner refs ns).trace.countP isSubmitEffect = 0 := by
  induction refs generalizing c with
  | nil => simp [copySecrets]
  | cons r rest ih =>
      simp only [copySecrets]
      cases hc : copySecret c owner r ns with
      | error e => simp
      | ok c1 => simp [List.countP_cons, isSubmitEffect, ih c1]

theorem copySecrets_trace_countP_cm (c : Cluster) (owner : String)
    (refs : List v1alpha1.SecretReference) (ns : String) :
    (copySecrets c owner refs ns).trace.countP isProvisionConfigMapEffect = 0 := by
  induction refs generalizing c with
  | nil => simp [copySecrets]
  | cons r rest ih =>
      simp only [copySecrets]
      cases hc : copySecret c owner r ns with
      | error e => simp
      | ok c1 => simp [List.countP_cons, isProvisionConfigMapEffect, ih c1]

theorem copyConfigMaps_trace_countP_submit (c : Cluster) (owner : String)
    (refs : List v1alpha1.ConfigMapReference) (ns : String) :
    (copyConfigMaps c owner refs ns).trace.countP isSubmitEffect = 0 := by
  induction refs generalizing c with
  | nil => simp [copyConfigMaps]
  | cons r rest ih =>
      simp only [copyConfigMaps]
      cases hc : copyConfigMap c owner r ns with
      | error e => simp
      | ok c1 => simp [List.countP_cons, isSubmitEffect, ih c1]

end controller

/-! ## Claim theorems -/

/-- C10: for every non-empty application name and any two non-empty
namespace arguments, DeleteApplication submits the identical remote delete
request, which carries only the application name; the namespace argument is
validated for non-emptiness but never transmitted. -/
theorem C10_delete_namespace_independent (name ns1 ns2 : String)
    (hname : name ≠ "") (hns1 : ns1 ≠ "") (hns2 : ns2 ≠ "") :
    argocd.DeleteApplication name ns1 = argocd.DeleteApplication name ns2
    ∧ argocd.DeleteApplication name ns1
        = Except.ok { Name := some name, AppNamespace := none } := by
  constructor
  · simp [argocd.DeleteApplication, hname, hns1, hns2]
  · simp [argocd.DeleteApplication, hname, hns1]

/-- C10 witness: concrete evaluation at name "app" and namespaces "ns-a",
"ns-b". -/
theorem C10_delete_namespace_independent_witness :
    argocd.DeleteApplication "app" "ns-a" = argocd.DeleteApplication "app" "ns-b"
    ∧ argocd.DeleteApplication "app" "ns-a"
        = Except.ok { Name := some "app", AppNamespace := none } :=
  C10_delete_namespace_independent "app" "ns-a" "ns-b"
    (by decide) (by decide) (by decide)

/-- C6: evaluation of DoRequestWithRetry at the failing input. The first
call fails with a 401-class error, re-authentication and client rebuild
succeed, and the retried call succeeds; yet the adapter retries on the
connection derived from the original client (never the rebuilt one) and
still returns the first 401 error to the caller, because the retry result
is assigned to a shadowed variable. A non-authorization failure is returned
with no retry, as the claim states. -/
theorem C6_retry_shadowing_eval :
    (argocd.DoRequestWithRetry
        { firstResult := some "rpc error: code = Unauthenticated desc = 401",
          reauth := Except.ok "new-token", rebuild := Except.ok (),
          secondResult := none })
      = { returned := some "rpc error: code = Unauthenticated desc = 401",
          attempts := [argocd.ConnTag.original, argocd.ConnTag.original],
          clientRebuilt := true }
    ∧ (argocd.DoRequestWithRetry
        { firstResult := some "connection refused",
          reauth := Except.ok "new-token", rebuild := Except.ok (),
          secondResult := none })
      = { returned := some "connection refused",
          attempts := [argocd.ConnTag.original],
          clientRebuilt := false } := by
  constructor
  · decide
  · decide

/-- C8 counterexample: for the claim's own two-reference list, the second
secret summary is "/inline -> inline", not "inline (inline)": inline secret
references are rendered with the copy arrow format and an empty source
namespace. -/
theorem C8_counterexample :
    controller.buildCopiedSecretsList
        [{ Name := "db", SourceNamespace := "infra", TargetName := "", Values := [] },
         { Name := "inline", SourceNamespace := "", TargetName := "", Values := [("k", "v")] }]
      = ["infra/db -> db", "/inline -> inline"]
    ∧ controller.buildCopiedSecretsList
        [{ Name := "db", SourceNamespace := "infra", TargetName := "", Values := [] },
         { Name := "inline", SourceNamespace := "", TargetName := "", Values := [("k", "v")] }]
      ≠ ["infra/db -> db", "inline (inline)"] := by
  constructor
  · decide
  · decide

/-- C8 amended: every secret summary, inline references included, is
rendered SourceNamespace/Name -> targetName; config-map summaries are
"Name (inline)" for inline entries and SourceNamespace/Name (without the
arrow) for copied entries; in particular the claim's list yields
"infra/db -> db" and "/inline -> inline". -/
theorem C8_amended_summaries
    (secrets : List v1alpha1.SecretReference)
    (configMaps : List v1alpha1.ConfigMapReference) :
    controller.buildCopiedSecretsList secrets
      = secrets.map (fun s =>
          s.SourceNamespace ++ "/" ++ s.Name ++ " -> "
            ++ (if s.TargetName != "" then s.TargetName else s.Name))
    ∧ controller.buildCopiedConfigMapsList configMaps
      = configMaps.map (fun cm =>
          if cm.Data.length > 0 then cm.Name ++ " (inline)"
          else cm.SourceNamespace ++ "/" ++ cm.Name)
    ∧ controller.buildCopiedSecretsList
        [{ Name := "db", SourceNamespace := "infra", TargetName := "", Values := [] },
         { Name := "inline", SourceNamespace := "", TargetName := "", Values := [("k", "v")] }]
      = ["infra/db -> db", "/inline -> inline"] := by
  refine ⟨rfl, rfl, by decide⟩

/-- Sanitization lands in the DNS-label-safe character set on the
letters/digits/hyphen/underscore alphabet. -/
theorem sanitizeChar_good (c : Char)
    (h : controller.isNameInputChar c = true) :
    controller.isLowerAlnumHyphen (controller.sanitizeChar c) = true := by
  have hmem : c ∈ controller.nameInputChars :=
    of_decide_eq_true (by simpa [controller.isNameInputChar] using h)
  have hall : controller.nameInputChars.all
      (fun c => controller.isLowerAlnumHyphen (controller.sanitizeChar c)) = true := by
    decide
  exact List.all_eq_true.mp hall c hmem

/-- Every character of the random suffix charset is DNS-label-safe. -/
theorem nameCharset_good :
    controller.nameCharset.all controller.isLowerAlnumHyphen = true := by
  decide

/-- Appending strings concatenates their character lists. -/
theorem string_toList_append (s t : String) :
    (s ++ t).toList = s.toList ++ t.toList := by
  simp [String.toList, String.data_append]

/-- Reduction of the generator on an empty hint. -/
theorem GenerateNamespace_empty (rnd : Fin 7 → Fin 36) :
    controller.GenerateNamespace "" rnd
      = "ephemeral-" ++ ((List.finRange 7).map
          (fun i => controller.nameCharset.get ((rnd i).cast (by decide)))).asString := rfl

/-- Reduction of the generator on a non-empty hint. -/
theorem GenerateNamespace_of_ne (hint : String) (rnd : Fin 7 → Fin 36)
    (hh : hint ≠ "") :
    controller.GenerateNamespace hint rnd
      = (if (hint.toList.map controller.sanitizeChar).length > 63
         then (hint.toList.map controller.sanitizeChar).take 63
         else hint.toList.map controller.sanitizeChar).asString := by
  unfold controller.GenerateNamespace
  rw [if_pos (bne_iff_ne.mpr hh)]

/-- C9 counterexample: the hint "a.b" is returned as "a.b", which contains
a dot, so the generator's output is not always composed only of lowercase
alphanumerics and hyphens. -/
theorem C9_counterexample :
    controller.GenerateNamespace "a.b" controller.rndZero = "a.b"
    ∧ ("a.b".toList.all controller.isLowerAlnumHyphen) = false := by
  exact ⟨by decide, by decide⟩

/-- C9 amended: for every hint and random source the generator returns
(without failing) a string of length at most 63; the output is the hint
lower-cased with underscores replaced by hyphens and truncated, so whenever
the hint consists of ASCII letters of any casing, digits, hyphens and
underscores — and for the empty hint, whose output is "ephemeral-" plus 7
charset characters — the output is composed only of lowercase alphanumerics
and hyphens. -/
theorem C9_amended_namegen (hint : String) (rnd : Fin 7 → Fin 36) :
    (controller.GenerateNamespace hint rnd).length ≤ 63
    ∧ (hint.toList.all controller.isNameInputChar = true →
        (controller.GenerateNamespace hint rnd).toList.all
          controller.isLowerAlnumHyphen = true) := by
  by_cases hh : hint = ""
  · subst hh
    constructor
    · rw [GenerateNamespace_empty]
      have h1 : ∀ s : String, s.length = s.toList.length := fun _ => rfl
      rw [h1, string_toList_append, List.length_append, List.toList_asString,
        List.length_map, List.length_finRange]
      decide
    · intro _
      rw [GenerateNamespace_empty, string_toList_append]
      simp only [List.all_append, Bool.and_eq_true]
      refine ⟨by decide, ?_⟩
      rw [List.toList_asString, List.all_eq_true]
      intro x hx
      obtain ⟨i, _, hi⟩ := List.mem_map.mp hx
      have hmem : x ∈ controller.nameCharset := by
        rw [← hi]
        exact List.get_mem _ _ _
      exact List.all_eq_true.mp nameCharset_good x hmem
  · rw [GenerateNamespace_of_ne hint rnd hh]
    constructor
    · rw [List.length_asString]
      by_cases hl : (hint.toList.map controller.sanitizeChar).length > 63
      · simp only [if_pos hl, List.length_take]
        exact min_le_left _ _
      · simp only [if_neg hl]
        omega
    · intro hgood
      rw [List.toList_asString, List.all_eq_true]
      intro x hx
      have hx2 : x ∈ hint.toList.map controller.sanitizeChar := by
        by_cases hl : (hint.toList.map controller.sanitizeChar).length > 63
        · rw [if_pos hl] at hx
          exact List.mem_of_mem_take hx
        · rwa [if_neg hl] at hx
      obtain ⟨c, hc, hcx⟩ := List.mem_map.mp hx2
      rw [← hcx]
      exact sanitizeChar_good c (List.all_eq_true.mp hgood c hc)

/-- C9 witness: concrete evaluation of the amended theorem at the hint
"My_App". -/
theorem C9_amended_namegen_witness :
    (controller.GenerateNamespace "My_App" controller.rndZero).length ≤ 63
    ∧ (controller.GenerateNamespace "My_App" controller.rndZero).toList.all
        controller.isLowerAlnumHyphen = true :=
  ⟨(C9_amended_namegen "My_App" controller.rndZero).1,
   (C9_amended_namegen "My_App" controller.rndZero).2 (by decide)⟩

/-- C2: the creation request built on the Pending-to-Creating transition
carries an ignoreDifferences list with exactly one Secret entry per secret
reference, named by its resolved target name, with JSON pointers /data and
/stringData, followed by exactly one ConfigMap entry per config-map
reference with JSON pointers /data and /binaryData. -/
theorem C2_ignore_differences (ephApp : v1alpha1.EphemeralApplication)
    (nspace : String)
    (_h : ephApp.Spec.Secrets ≠ [] ∨ ephApp.Spec.ConfigMaps ≠ []) :
    (controller.buildCreateRequest ephApp nspace).IgnoreDifferences
        = argocd.BuildIgnoreDifferences ephApp
    ∧ argocd.BuildIgnoreDifferences ephApp
        = ephApp.Spec.Secrets.map (fun s =>
            { Group := "", Kind := "Secret",
              Name := if s.TargetName != "" then s.TargetName else s.Name,
              JSONPointers := ["/data", "/stringData"] })
          ++ ephApp.Spec.ConfigMaps.map (fun cm =>
            { Group := "", Kind := "ConfigMap", Name := cm.Name,
              JSONPointers := ["/data", "/binaryData"] })
    ∧ (argocd.BuildIgnoreDifferences ephApp).length
        = ephApp.Spec.Secrets.length + ephApp.Spec.ConfigMaps.length := by
  refine ⟨rfl, rfl, ?_⟩
  simp [argocd.BuildIgnoreDifferences]

/-- C2 witness: concrete evaluation at the sample record, which has one
secret reference and one config-map reference. -/
theorem C2_ignore_differences_witness :
    (controller.buildCreateRequest controller.sampleApp "demo-ns").IgnoreDifferences
        = argocd.BuildIgnoreDifferences controller.sampleApp
    ∧ argocd.BuildIgnoreDifferences controller.sampleApp
        = controller.sampleApp.Spec.Secrets.map (fun s =>
            { Group := "", Kind := "Secret",
              Name := if s.TargetName != "" then s.TargetName else s.Name,
              JSONPointers := ["/data", "/stringData"] })
          ++ controller.sampleApp.Spec.ConfigMaps.map (fun cm =>
            { Group := "", Kind := "ConfigMap", Name := cm.Name,
              JSONPointers := ["/data", "/binaryData"] })
    ∧ (argocd.BuildIgnoreDifferences controller.sampleApp).length
        = controller.sampleApp.Spec.Secrets.length
          + controller.sampleApp.Spec.ConfigMaps.length :=
  C2_ignore_differences controller.sampleApp "demo-ns" (Or.inl (by decide))

/-- C7: the creation request carries the record's spec.syncPolicy automated
settings verbatim, and defaults to automated sync with prune and selfHeal
enabled exactly when the record specifies no sync policy. -/
theorem C7_sync_policy_carried (ephApp : v1alpha1.EphemeralApplication)
    (nspace : String) :
    (ephApp.Spec.SyncPolicy = none →
      (controller.buildCreateRequest ephApp nspace).SyncPolicy.Automated
        = some { Prune := true, SelfHeal := true })
    ∧ (∀ sp, ephApp.Spec.SyncPolicy = some sp →
        (controller.buildCreateRequest ephApp nspace).SyncPolicy.Automated
          = sp.Automated.map (fun a => { Prune := a.Prune, SelfHeal := a.SelfHeal })) := by
  constructor
  · intro h
    simp [controller.buildCreateRequest, argocd.buildSyncPolicy, h]
  · intro sp h
    simp [controller.buildCreateRequest, argocd.buildSyncPolicy, h]

/-- C7 witness: a record whose sync policy sets automated prune=false and
selfHeal=false yields a request carrying prune=false and selfHeal=false,
and the sample record (no sync policy) yields the default. -/
theorem C7_sync_policy_carried_witness :
    (controller.buildCreateRequest
        { controller.sampleApp with Spec := { controller.sampleApp.Spec with
            SyncPolicy := some { Automated := some { Prune := false, SelfHeal := false },
                                 Prune := false, SelfHeal := false } } }
        "demo-ns").SyncPolicy.Automated
      = some { Prune := false, SelfHeal := false }
    ∧ (controller.buildCreateRequest controller.sampleApp "demo-ns").SyncPolicy.Automated
      = some { Prune := true, SelfHeal := true } :=
  ⟨by
    rw [(C7_sync_policy_carried
      { controller.sampleApp with Spec := { controller.sampleApp.Spec with
          SyncPolicy := some { Automated := some { Prune := false, SelfHeal := false },
                               Prune := false, SelfHeal := false } } }
      "demo-ns").2
      { Automated := some { Prune := false, SelfHeal := false },
        Prune := false, SelfHeal := false } rfl]
    rfl,
   (C7_sync_policy_carried controller.sampleApp "demo-ns").1 rfl⟩

/-- C3: for every record whose deletion timestamp is unset and whose
expiration date lies strictly in the past, the reconciliation pass —
whatever the current phase, Failed included — writes phase Expiring with a
Ready=False/Expiring condition, persists that status, and then issues a
delete of the record itself. -/
theorem C3_expiration_pass (app : v1alpha1.EphemeralApplication)
    (env : controller.ReconcileEnv)
    (hdt : app.Meta.DeletionTimestamp = none)
    (hexp : app.Spec.ExpirationDate < env.now)
    (hfu : env.finalizerUpdate = none)
    (hsu : env.expiration.statusUpdate = none) :
    (controller.Reconcile app env).App.Status = controller.expiringStatus app env.now
    ∧ controller.mkCondition env.now app.Meta.Generation "Ready" "False" "Expiring"
        "Environment has expired" ∈ (controller.Reconcile app env).App.Status.Conditions
    ∧ (controller.Reconcile app env).Trace
        = (if app.Meta.Finalizers.contains controller.finalizerName
           then ([] : List controller.Effect)
           else [controller.Effect.updateRecord
                  (app.Meta.Finalizers ++ [controller.finalizerName])])
          ++ [controller.Effect.updateStatus (controller.expiringStatus app env.now),
              controller.Effect.deleteRecord app.Meta.Name] := by
  have hmem := controller.mem_setCondition app.Status.Conditions
    (controller.mkCondition env.now app.Meta.Generation "Ready" "False" "Expiring"
      "Environment has expired")
  by_cases hfin : app.Meta.Finalizers.contains controller.finalizerName
  · have hm : controller.finalizerName ∈ app.Meta.Finalizers := by simpa using hfin
    cases hdr : env.expiration.deleteRecord <;>
      refine ⟨?_, ?_, ?_⟩ <;>
      simp [controller.Reconcile, controller.handleExpiration,
        controller.HandlerResult.withTraceHead, controller.isExpired,
        controller.expiringStatus, hdt, hfin, hm, hfu, hsu, hdr, hexp, hmem]
  · have hm : controller.finalizerName ∉ app.Meta.Finalizers := by simpa using hfin
    cases hdr : env.expiration.deleteRecord <;>
      refine ⟨?_, ?_, ?_⟩ <;>
      simp [controller.Reconcile, controller.handleExpiration,
        controller.HandlerResult.withTraceHead, controller.isExpired,
        controller.expiringStatus, hdt, hfin, hm, hfu, hsu, hdr, hexp, hmem]

/-- C3 witness: concrete evaluation at the sample record with the clock
past its expiration date, in phase Failed. -/
theorem C3_expiration_pass_witness :
    (controller.Reconcile
        { controller.sampleApp with Status :=
            { controller.sampleApp.Status with Phase := v1alpha1.PhaseFailed } }
        { controller.sampleReconcileEnv with now := 101 }).App.Status
      = controller.expiringStatus
          { controller.sampleApp with Status :=
              { controller.sampleApp.Status with Phase := v1alpha1.PhaseFailed } } 101
    ∧ controller.mkCondition 101 1 "Ready" "False" "Expiring" "Environment has expired"
        ∈ (controller.Reconcile
            { controller.sampleApp with Status :=
                { controller.sampleApp.Status with Phase := v1alpha1.PhaseFailed } }
            { controller.sampleReconcileEnv with now := 101 }).App.Status.Conditions
    ∧ (controller.Reconcile
          { controller.sampleApp with Status :=
              { controller.sampleApp.Status with Phase := v1alpha1.PhaseFailed } }
          { controller.sampleReconcileEnv with now := 101 }).Trace
        = [controller.Effect.updateStatus
            (controller.expiringStatus
              { controller.sampleApp with Status :=
                  { controller.sampleApp.Status with Phase := v1alpha1.PhaseFailed } } 101),
           controller.Effect.deleteRecord "demo"] := by
  have h := C3_expiration_pass
    { controller.sampleApp with Status :=
        { controller.sampleApp.Status with Phase := v1alpha1.PhaseFailed } }
    { controller.sampleReconcileEnv with now := 101 }
    (by decide) (by decide) rfl rfl
  exact ⟨h.1, h.2.1, by rw [h.2.2]; decide⟩

/-- C4: when the adapter query reports not-found while the record is in
phase Creating or Active (deletion not begun, not expired), the same pass
moves the record to phase Failed with a message capturing the
not-found/disappeared cause, instead of leaving the phase unchanged. -/
theorem C4_notfound_fails_record (app : v1alpha1.EphemeralApplication)
    (env : controller.ReconcileEnv) (msg : String)
    (hdt : app.Meta.DeletionTimestamp = none)
    (hfin : app.Meta.Finalizers.contains controller.finalizerName = true)
    (hexp : controller.isExpired env.now app = false)
    (hget : env.getApp = controller.GetAppResult.notFound msg) :
    (app.Status.Phase = v1alpha1.PhaseCreating →
      (controller.Reconcile app env).App.Status.Phase = v1alpha1.PhaseFailed
      ∧ (controller.Reconcile app env).App.Status.Message
          = "ArgoCD application not found" ++ ": " ++ msg)
    ∧ (app.Status.Phase = v1alpha1.PhaseActive →
      (controller.Reconcile app env).App.Status.Phase = v1alpha1.PhaseFailed
      ∧ (controller.Reconcile app env).App.Status.Message
          = "ArgoCD application disappeared" ++ ": " ++ msg) := by
  have hm : controller.finalizerName ∈ app.Meta.Finalizers := by simpa using hfin
  have hexp2 : ¬ (app.Spec.ExpirationDate < env.now) := by
    simpa [controller.isExpired] using hexp
  constructor
  · intro hP
    cases hsu : env.statusUpdate <;>
      constructor <;>
      simp [controller.Reconcile, controller.handleCreatingPhase,
        controller.updateStatusWithError, controller.HandlerResult.withTraceHead,
        controller.isExpired, hdt, hm, hexp2, hget, hP, hsu,
        v1alpha1.PhaseCreating, v1alpha1.PhasePending, v1alpha1.PhaseFailed]
  · intro hP
    cases hsu : env.statusUpdate <;>
      constructor <;>
      simp [controller.Reconcile, controller.handleActivePhase,
        controller.updateStatusWithError, controller.HandlerResult.withTraceHead,
        controller.isExpired, hdt, hm, hexp2, hget, hP, hsu,
        v1alpha1.PhaseActive, v1alpha1.PhasePending, v1alpha1.PhaseCreating,
        v1alpha1.PhaseFailed]

/-- C4 witness: concrete evaluation at the sample record in phase Creating
and in phase Active with a not-found query result. -/
theorem C4_notfound_fails_record_witness :
    ((controller.Reconcile
        { controller.sampleApp with Status :=
            { controller.sampleApp.Status with Phase := v1alpha1.PhaseCreating } }
        controller.sampleReconcileEnv).App.Status.Phase = v1alpha1.PhaseFailed
      ∧ (controller.Reconcile
          { controller.sampleApp with Status :=
              { controller.sampleApp.Status with Phase := v1alpha1.PhaseCreating } }
          controller.sampleReconcileEnv).App.Status.Message
        = "ArgoCD application not found" ++ ": "
          ++ "applications.argoproj.io \x22demo\x22 not found")
    ∧ ((controller.Reconcile
        { controller.sampleApp with Status :=
            { controller.sampleApp.Status with Phase := v1alpha1.PhaseActive } }
        controller.sampleReconcileEnv).App.Status.Phase = v1alpha1.PhaseFailed
      ∧ (controller.Reconcile
          { controller.sampleApp with Status :=
              { controller.sampleApp.Status with Phase := v1alpha1.PhaseActive } }
          controller.sampleReconcileEnv).App.Status.Message
        = "ArgoCD application disappeared" ++ ": "
          ++ "applications.argoproj.io \x22demo\x22 not found") :=
  ⟨(C4_notfound_fails_record
      { controller.sampleApp with Status :=
          { controller.sampleApp.Status with Phase := v1alpha1.PhaseCreating } }
      controller.sampleReconcileEnv "applications.argoproj.io \x22demo\x22 not found"
      rfl (by decide) (by decide) rfl).1 rfl,
   (C4_notfound_fails_record
      { controller.sampleApp with Status :=
          { controller.sampleApp.Status with Phase := v1alpha1.PhaseActive } }
      controller.sampleReconcileEnv "applications.argoproj.io \x22demo\x22 not found"
      rfl (by decide) (by decide) rfl).2 rfl⟩

/-- Removing the finalizer really removes it: it is no longer a member of
the filtered finalizer list. -/
theorem finalizer_not_mem_filter (l : List String) :
    controller.finalizerName ∉ l.filter (fun f => f ≠ controller.finalizerName) := by
  intro h
  have h2 := (List.mem_filter.mp h).2
  simp at h2

/-- C5: with the finalizer present, a not-found from either tolerant delete
is treated as success; a real error on either delete aborts the pass with
the record unchanged and no finalizer write; and running teardown twice
with both objects already absent succeeds, removing the finalizer exactly
once — the second pass is a no-op. -/
theorem C5_teardown_tolerant_idempotent (app : v1alpha1.EphemeralApplication)
    (env env2 : controller.DeletionEnv) (msg : String)
    (hfin : app.Meta.Finalizers.contains controller.finalizerName = true) :
    ((env.argoDelete = controller.DeleteOutcome.ok
        ∨ env.argoDelete = controller.DeleteOutcome.notFound) →
     (env.nsDelete = controller.DeleteOutcome.ok
        ∨ env.nsDelete = controller.DeleteOutcome.notFound) →
     env.update = none →
     (controller.handleDeletion app env).Err = none
     ∧ (controller.handleDeletion app env).App.Meta.Finalizers.contains
         controller.finalizerName = false)
    ∧ (env.argoDelete = controller.DeleteOutcome.failed msg →
       app.Status.ArgoApplicationName ≠ "" →
       (controller.handleDeletion app env).Err = some msg
       ∧ (controller.handleDeletion app env).App = app
       ∧ (controller.handleDeletion app env).Trace.countP
           controller.isUpdateRecordEffect = 0)
    ∧ ((env.argoDelete = controller.DeleteOutcome.ok
          ∨ env.argoDelete = controller.DeleteOutcome.notFound) →
       env.nsDelete = controller.DeleteOutcome.failed msg →
       app.Status.Namespace ≠ "" →
       (controller.handleDeletion app env).Err = some msg
       ∧ (controller.handleDeletion app env).App = app
       ∧ (controller.handleDeletion app env).Trace.countP
           controller.isUpdateRecordEffect = 0)
    ∧ (env.argoDelete = controller.DeleteOutcome.notFound →
       env.nsDelete = controller.DeleteOutcome.notFound →
       env.update = none →
       (controller.handleDeletion app env).Err = none
       ∧ (controller.handleDeletion app env).Trace.countP
           controller.isUpdateRecordEffect = 1
       ∧ controller.handleDeletion (controller.handleDeletion app env).App env2
           = { App := (controller.handleDeletion app env).App, Trace := [],
               Requeue := none, Err := none }) := by
  have hm : controller.finalizerName ∈ app.Meta.Finalizers := by simpa using hfin
  refine ⟨?_, ?_, ?_, ?_⟩
  · intro hA hN hu
    rcases hA with hA | hA <;> rcases hN with hN | hN <;>
      by_cases hAn : app.Status.ArgoApplicationName = "" <;>
      by_cases hNn : app.Status.Namespace = "" <;>
      constructor <;>
      simp [controller.handleDeletion, hm, hA, hN, hu, hAn, hNn,
        finalizer_not_mem_filter]
  · intro hA hname
    refine ⟨?_, ?_, ?_⟩ <;>
      by_cases hNn : app.Status.Namespace = "" <;>
      simp [controller.handleDeletion, hm, hA, hname, hNn,
        controller.isUpdateRecordEffect]
  · intro hA hN hname
    rcases hA with hA | hA <;>
      by_cases hAn : app.Status.ArgoApplicationName = "" <;>
      refine ⟨?_, ?_, ?_⟩ <;>
      simp [controller.handleDeletion, hm, hA, hN, hname, hAn, List.countP_append,
        List.countP_cons, controller.isUpdateRecordEffect]
  · intro hA hN hu
    refine ⟨?_, ?_, ?_⟩
    · by_cases hAn : app.Status.ArgoApplicationName = "" <;>
      by_cases hNn : app.Status.Namespace = "" <;>
      simp [controller.handleDeletion, hm, hA, hN, hu, hAn, hNn]
    · by_cases hAn : app.Status.ArgoApplicationName = "" <;>
      by_cases hNn : app.Status.Namespace = "" <;>
      simp [controller.handleDeletion, hm, hA, hN, hu, hAn, hNn, List.countP_append,
        List.countP_cons, controller.isUpdateRecordEffect]
    · have hc2 : controller.finalizerName ∉
          (controller.handleDeletion app env).App.Meta.Finalizers := by
        by_cases hAn : app.Status.ArgoApplicationName = "" <;>
        by_cases hNn : app.Status.Namespace = "" <;>
        simp [controller.handleDeletion, hm, hA, hN, hu, hAn, hNn,
          finalizer_not_mem_filter]
      set b := (controller.handleDeletion app env).App with hb
      simp [controller.handleDeletion, hc2]

/-- C5 witness: concrete evaluation on a record carrying the finalizer with
recorded application and namespace names, both deletes reporting not-found,
run twice. -/
theorem C5_teardown_tolerant_idempotent_witness :
    (controller.handleDeletion
        { controller.sampleApp with Status :=
            { controller.sampleApp.Status with
                ArgoApplicationName := "demo", Namespace := "demo-ns" } }
        { argoDelete := controller.DeleteOutcome.notFound,
          nsDelete := controller.DeleteOutcome.notFound, update := none }).Err = none
    ∧ (controller.handleDeletion
        { controller.sampleApp with Status :=
            { controller.sampleApp.Status with
                ArgoApplicationName := "demo", Namespace := "demo-ns" } }
        { argoDelete := controller.DeleteOutcome.notFound,
          nsDelete := controller.DeleteOutcome.notFound,
          update := none }).App.Meta.Finalizers.contains controller.finalizerName = false
    ∧ (controller.handleDeletion
        { controller.sampleApp with Status :=
            { controller.sampleApp.Status with
                ArgoApplicationName := "demo", Namespace := "demo-ns" } }
        { argoDelete := controller.DeleteOutcome.notFound,
          nsDelete := controller.DeleteOutcome.notFound,
          update := none }).Trace.countP controller.isUpdateRecordEffect = 1
    ∧ controller.handleDeletion
        (controller.handleDeletion
          { controller.sampleApp with Status :=
              { controller.sampleApp.Status with
                  ArgoApplicationName := "demo", Namespace := "demo-ns" } }
          { argoDelete := controller.DeleteOutcome.notFound,
            nsDelete := controller.DeleteOutcome.notFound, update := none }).App
        { argoDelete := controller.DeleteOutcome.notFound,
          nsDelete := controller.DeleteOutcome.notFound, update := none }
        = { App := (controller.handleDeletion
              { controller.sampleApp with Status :=
                  { controller.sampleApp.Status with
                      ArgoApplicationName := "demo", Namespace := "demo-ns" } }
              { argoDelete := controller.DeleteOutcome.notFound,
                nsDelete := controller.DeleteOutcome.notFound, update := none }).App,
            Trace := [], Requeue := none, Err := none } := by
  have h := C5_teardown_tolerant_idempotent
    { controller.sampleApp with Status :=
        { controller.sampleApp.Status with
            ArgoApplicationName := "demo", Namespace := "demo-ns" } }
    { argoDelete := controller.DeleteOutcome.notFound,
      nsDelete := controller.DeleteOutcome.notFound, update := none }
    { argoDelete := controller.DeleteOutcome.notFound,
      nsDelete := controller.DeleteOutcome.notFound, update := none }
    "unused" (by decide)
  obtain ⟨e1, e2⟩ := h.1 (Or.inr rfl) (Or.inr rfl) rfl
  obtain ⟨_, d2, d3⟩ := h.2.2.2 rfl rfl rfl
  exact ⟨e1, e2, d2, d3⟩

/-- C1: on a Pending pass whose boundary creation succeeds (or finds the
boundary already present), the handler provisions the secret references and
then the config-map references before submitting the creation request —
the effect trace is exactly boundary creation, one provisioning step per
secret reference in order, one per config-map reference in order, the
submission, and the status persist — and on the first failing reference it
abandons the phase: the record moves to Failed with a message embedding
the wrapped error, which names the failing reference, and nothing is
submitted (after a secret failure no config map is provisioned either). -/
theorem C1_pending_provisioner_order (app : v1alpha1.EphemeralApplication)
    (env : controller.PendingEnv) (now interval : Nat)
    (hB : env.boundaryCreate = controller.BoundaryOutcome.ok
        ∨ env.boundaryCreate = controller.BoundaryOutcome.alreadyExists) :
    ((controller.copySecrets env.cluster app.Meta.Name app.Spec.Secrets
        (controller.GenerateNamespace app.Spec.NamespaceName env.rnd)).err = none →
     (controller.copyConfigMaps (controller.copySecrets env.cluster app.Meta.Name
          app.Spec.Secrets (controller.GenerateNamespace app.Spec.NamespaceName env.rnd)).cluster
        app.Meta.Name app.Spec.ConfigMaps
        (controller.GenerateNamespace app.Spec.NamespaceName env.rnd)).err = none →
     env.createApp = none → env.statusUpdate = none →
     (controller.handlePendingPhase app now interval env).Trace
       = controller.Effect.createBoundary
           (controller.GenerateNamespace app.Spec.NamespaceName env.rnd)
         :: (app.Spec.Secrets.map (fun r => controller.Effect.provisionSecret r.Name)
             ++ app.Spec.ConfigMaps.map (fun r => controller.Effect.provisionConfigMap r.Name)
             ++ [controller.Effect.submitCreate (controller.buildCreateRequest app
                   (controller.GenerateNamespace app.Spec.NamespaceName env.rnd)),
                 controller.Effect.updateStatus
                   (controller.handlePendingPhase app now interval env).App.Status])
     ∧ (controller.handlePendingPhase app now interval env).App.Status.Phase
         = v1alpha1.PhaseCreating)
    ∧ (∀ e, (controller.copySecrets env.cluster app.Meta.Name app.Spec.Secrets
          (controller.GenerateNamespace app.Spec.NamespaceName env.rnd)).err = some e →
       (controller.handlePendingPhase app now interval env).App.Status.Phase
           = v1alpha1.PhaseFailed
       ∧ (controller.handlePendingPhase app now interval env).App.Status.Message
           = "Failed to copy secrets" ++ ": " ++ e
       ∧ (controller.handlePendingPhase app now interval env).Trace.countP
           controller.isSubmitEffect = 0
       ∧ (controller.handlePendingPhase app now interval env).Trace.countP
           controller.isProvisionConfigMapEffect = 0
       ∧ ∃ r ∈ app.Spec.Secrets, ∃ inner, e = "failed to copy secret " ++ r.Name
           ++ " from " ++ r.SourceNamespace ++ ": " ++ inner)
    ∧ (∀ e, (controller.copySecrets env.cluster app.Meta.Name app.Spec.Secrets
          (controller.GenerateNamespace app.Spec.NamespaceName env.rnd)).err = none →
       (controller.copyConfigMaps (controller.copySecrets env.cluster app.Meta.Name
            app.Spec.Secrets (controller.GenerateNamespace app.Spec.NamespaceName env.rnd)).cluster
          app.Meta.Name app.Spec.ConfigMaps
          (controller.GenerateNamespace app.Spec.NamespaceName env.rnd)).err = some e →
       (controller.handlePendingPhase app now interval env).App.Status.Phase
           = v1alpha1.PhaseFailed
       ∧ (controller.handlePendingPhase app now interval env).App.Status.Message
           = "Failed to copy configmaps" ++ ": " ++ e
       ∧ (controller.handlePendingPhase app now interval env).Trace.countP
           controller.isSubmitEffect = 0
       ∧ ∃ r ∈ app.Spec.ConfigMaps, ∃ inner,
           e = "failed to copy configmap " ++ r.Name ++ ": " ++ inner) := by
  refine ⟨?_, ?_, ?_⟩
  · intro hs hc hca hsu
    constructor
    · rcases hB with hB | hB <;>
        simp only [controller.handlePendingPhase, hB, controller.HandlerResult.withTraceHead,
          hs, hc, hca, hsu] <;>
        rw [controller.copySecrets_trace_of_ok _ _ _ _ hs,
          controller.copyConfigMaps_trace_of_ok _ _ _ _ hc]
    · rcases hB with hB | hB <;>
        simp [controller.handlePendingPhase, hB, hs, hc, hca, hsu,
          controller.HandlerResult.withTraceHead]
  · intro e hs
    have hnames := controller.copySecrets_err_names_ref env.cluster app.Meta.Name
      app.Spec.Secrets (controller.GenerateNamespace app.Spec.NamespaceName env.rnd) e hs
    have hcount1 := controller.copySecrets_trace_countP_submit env.cluster app.Meta.Name
      app.Spec.Secrets (controller.GenerateNamespace app.Spec.NamespaceName env.rnd)
    have hcount2 := controller.copySecrets_trace_countP_cm env.cluster app.Meta.Name
      app.Spec.Secrets (controller.GenerateNamespace app.Spec.NamespaceName env.rnd)
    rcases hB with hB | hB <;>
      cases hsu : env.statusUpdate <;>
      refine ⟨?_, ?_, ?_, ?_, hnames⟩ <;>
      simp [controller.handlePendingPhase, hB, hs, hsu,
        controller.HandlerResult.withTraceHead, controller.updateStatusWithError,
        List.countP_cons, List.countP_append, controller.isSubmitEffect,
        controller.isProvisionConfigMapEffect, hcount1, hcount2]
  · intro e hs hc
    have hnames := controller.copyConfigMaps_err_names_ref _ app.Meta.Name
      app.Spec.ConfigMaps (controller.GenerateNamespace app.Spec.NamespaceName env.rnd) e hc
    have hcount1 := controller.copySecrets_trace_countP_submit env.cluster app.Meta.Name
      app.Spec.Secrets (controller.GenerateNamespace app.Spec.NamespaceName env.rnd)
    have hcount3 := controller.copyConfigMaps_trace_countP_submit
      (controller.copySecrets env.cluster app.Meta.Name app.Spec.Secrets
        (controller.GenerateNamespace app.Spec.NamespaceName env.rnd)).cluster
      app.Meta.Name app.Spec.ConfigMaps
      (controller.GenerateNamespace app.Spec.NamespaceName env.rnd)
    rcases hB with hB | hB <;>
      cases hsu : env.statusUpdate <;>
      refine ⟨?_, ?_, ?_, hnames⟩ <;>
      simp [controller.handlePendingPhase, hB, hs, hc, hsu,
        controller.HandlerResult.withTraceHead, controller.updateStatusWithError,
        List.countP_cons, List.countP_append, controller.isSubmitEffect,
        hcount1, hcount3]

/-- C1 witness: concrete evaluation of the success ordering at the sample
record (one inline secret, one inline config map). -/
theorem C1_pending_provisioner_order_witness :
    (controller.handlePendingPhase controller.sampleApp 5 300
        controller.samplePendingEnv).Trace
      = controller.Effect.createBoundary
          (controller.GenerateNamespace controller.sampleApp.Spec.NamespaceName
            controller.samplePendingEnv.rnd)
        :: (controller.sampleApp.Spec.Secrets.map
              (fun r => controller.Effect.provisionSecret r.Name)
            ++ controller.sampleApp.Spec.ConfigMaps.map
                (fun r => controller.Effect.provisionConfigMap r.Name)
            ++ [controller.Effect.submitCreate (controller.buildCreateRequest
                  controller.sampleApp
                  (controller.GenerateNamespace controller.sampleApp.Spec.NamespaceName
                    controller.samplePendingEnv.rnd)),
                controller.Effect.updateStatus
                  (controller.handlePendingPhase controller.sampleApp 5 300
                    controller.samplePendingEnv).App.Status])
    ∧ (controller.handlePendingPhase controller.sampleApp 5 300
        controller.samplePendingEnv).App.Status.Phase = v1alpha1.PhaseCreating :=
  (C1_pending_provisioner_order controller.sampleApp controller.samplePendingEnv 5 300
    (Or.inl rfl)).1 (by decide) (by decide) rfl rfl

/-- C8 amended witness: concrete evaluation of the amended summary formats
at the claim's own two-reference secret list and a two-reference config-map
list. -/
theorem C8_amended_summaries_witness :
    controller.buildCopiedSecretsList
        [{ Name := "db", SourceNamespace := "infra", TargetName := "", Values := [] },
         { Name := "inline", SourceNamespace := "", TargetName := "", Values := [("k", "v")] }]
      = ["infra/db -> db", "/inline -> inline"]
    ∧ controller.buildCopiedConfigMapsList
        [{ Name := "cfg", SourceNamespace := "", Data := [("a", "b")] },
         { Name := "copied", SourceNamespace := "shared", Data := [] }]
      = ["cfg (inline)", "shared/copied"] :=
  ⟨(C8_amended_summaries
      [{ Name := "db", SourceNamespace := "infra", TargetName := "", Values := [] },
       { Name := "inline", SourceNamespace := "", TargetName := "", Values := [("k", "v")] }]
      [{ Name := "cfg", SourceNamespace := "", Data := [("a", "b")] },
       { Name := "copied", SourceNamespace := "shared", Data := [] }]).2.2,
   by
    rw [(C8_amended_summaries ([] : List v1alpha1.SecretReference)
      [{ Name := "cfg", SourceNamespace := "", Data := [("a", "b")] },
       { Name := "copied", SourceNamespace := "shared", Data := [] }]).2.1]
    decide⟩
